import Mathlib

/-!
Shallow embedding of the LDAR_Sim utility modules
src/LDAR_Sim/src/utils/distributions.py (fit_dist, leak_rvs,
unpackage_dist) and src/LDAR_Sim/src/utils/generic_functions.py
(gap_calculator, init_orbit_poly).

External collaborators are modelled as function parameters: the scipy
maximum-likelihood fitter dist.fit, numpy's exp, the unit converter
gas_convert, pandas CSV reading, and the satellite position pipeline
(predictor.get_position composed with ecef_to_llh).  json.loads is
modelled concretely, restricted to the numeric payloads fit_dist feeds
it.  Python floats are modelled as rationals; the control flow and data
plumbing of the repository's own code is translated directly.
-/

namespace LDARSim

/-- A Python value passed positionally or by keyword to the scipy
distribution constructor: a numeric scalar, a tuple of numbers, or None. -/
inductive PVal where
  | num (x : ℚ)
  | tup (xs : List ℚ)
  | pynone
deriving DecidableEq

/-- Result of json.loads restricted to the payloads fit_dist can receive
on its shape argument: a number or a flat list of numbers. -/
inductive JsonVal where
  | num (x : ℚ)
  | list (xs : List ℚ)
deriving DecidableEq

/-- The Python value bound to fit_dist's shape variable: a string, a
scalar, or a list (parametric inputs), the tuple param[:-2] (set in the
empirical branch), or None (the Python default). -/
inductive PyShape where
  | str (s : String)
  | num (x : ℚ)
  | list (xs : List ℚ)
  | tup (xs : List ℚ)
  | pynone
deriving DecidableEq

/-- Strip leading and trailing spaces from a character list. -/
def trimChars (l : List Char) : List Char :=
  ((l.dropWhile (fun c => c = ' ')).reverse.dropWhile (fun c => c = ' ')).reverse

/-- Split a character list on a separator character; always returns one
more segment than there are separators. -/
def splitOnChar (sep : Char) : List Char → List (List Char)
  | [] => [[]]
  | c :: rest =>
      let r := splitOnChar sep rest
      if c = sep then [] :: r
      else (c :: r.headD []) :: r.tail

/-- The numeric value of a decimal digit character, none otherwise. -/
def digitVal (c : Char) : Option ℕ :=
  if c.isDigit then some (c.toNat - 48) else none

/-- Accumulate a digit string into a natural number. -/
def parseDigitsAux : List Char → ℕ → Option ℕ
  | [], acc => some acc
  | c :: rest, acc =>
      match digitVal c with
      | some d => parseDigitsAux rest (acc * 10 + d)
      | none => none

/-- Parse a nonempty all-digit character list into a natural number. -/
def parseDigits : List Char → Option ℕ
  | [] => none
  | c :: rest => parseDigitsAux (c :: rest) 0

/-- Parse a decimal numeral (optional sign, optional fractional part)
into a rational; models the number grammar of the json payloads fit_dist
receives. -/
def parseNum (l : List Char) : Option ℚ :=
  let t := trimChars l
  let neg := t.headD ' ' = '-'
  let u := if neg then t.drop 1 else t
  match splitOnChar '.' u with
  | [w] => (parseDigits w).map (fun n => if neg then -(n : ℚ) else (n : ℚ))
  | [w, f] =>
      match parseDigits w, parseDigits f with
      | some wn, some fn =>
          some (if neg then -((wn : ℚ) + (fn : ℚ) / (10 : ℚ) ^ f.length)
                else (wn : ℚ) + (fn : ℚ) / (10 : ℚ) ^ f.length)
      | _, _ => none
  | _ => none

/-- Model of json.loads on the payloads used for shape strings: either a
bracketed comma-separated list of numbers or a bare number; none models
a raised json decoding error. -/
def jsonLoads (s : String) : Option JsonVal :=
  let t := trimChars s.data
  if t.headD ' ' = '[' ∧ t.getLastD ' ' = ']' then
    let inner := (t.drop 1).dropLast
    if trimChars inner = [] then some (JsonVal.list [])
    else ((splitOnChar ',' inner).mapM parseNum).map JsonVal.list
  else (parseNum t).map JsonVal.num

/-- Lines 54-59 of distributions.py: if shape is a string, json-decode
it; then, if (the possibly decoded) shape is not a Python list, wrap it
in a one-element list.  A tuple is not a Python list, so the fitted
shape tuple of the empirical branch is wrapped whole.  A malformed
string is a fatal parse error (json.loads raises). -/
def normalize_shape : PyShape → Except String (List PVal)
  | PyShape.str s =>
      match jsonLoads s with
      | some (JsonVal.num x) => Except.ok [PVal.num x]
      | some (JsonVal.list xs) => Except.ok (xs.map PVal.num)
      | none => Except.error "json.loads: malformed shape string"
  | PyShape.num x => Except.ok [PVal.num x]
  | PyShape.list xs => Except.ok (xs.map PVal.num)
  | PyShape.tup xs => Except.ok [PVal.tup xs]
  | PyShape.pynone => Except.ok [PVal.pynone]

/-- The frozen scipy distribution dist(*shape, loc=loc, scale=scale):
the family name plus the argument values it was constructed with. -/
structure FrozenDist where
  dist_type : String
  shape_args : List PVal
  loc : PVal
  scale : Option PVal
deriving DecidableEq

/-- distributions.py fit_dist.  The scipy fitter dist.fit(samples,
floc=loc) is external and passed in as fit, returning the flat parameter
tuple or an error.  Everything else mirrors the source: on a first fit
error the non-positive samples are dropped and the fit is retried once;
after a fit, loc is rebound to the 1-tuple (param[-2],), scale to
param[-1] and shape to the tuple param[:-2]; then the shape
normalization runs and the frozen distribution is built. -/
def fit_dist (fit : List ℚ → ℚ → Except String (List ℚ))
    (samples : Option (List ℚ)) (dist_type : String) (loc : ℚ)
    (shape : PyShape) (scale : Option ℚ) : Except String FrozenDist :=
  let stage : Except String (PyShape × PVal × Option PVal) :=
    match samples with
    | none => Except.ok (shape, PVal.num loc, scale.map PVal.num)
    | some ss =>
        ((match fit ss loc with
          | Except.ok p => Except.ok p
          | Except.error _ => fit (ss.filter (fun s => decide (0 < s))) loc :
            Except String (List ℚ))).map
          (fun p =>
            (PyShape.tup (p.take (p.length - 2)),
             PVal.tup [p.getD (p.length - 2) 0],
             some (PVal.num (p.getD (p.length - 1) 0))))
  stage.bind (fun t =>
    (normalize_shape t.1).map (fun sh =>
      { dist_type := dist_type, shape_args := sh, loc := t.2.1, scale := t.2.2 }))

/-- The frozen distribution the empirical branch of fit_dist builds from
a fitted parameter tuple p: shape param[:-2] passed as one tuple
argument, loc the 1-tuple (param[-2],), scale param[-1]. -/
def freeze_fitted (dist_type : String) (p : List ℚ) : FrozenDist :=
  { dist_type := dist_type
    shape_args := [PVal.tup (p.take (p.length - 2))]
    loc := PVal.tup [p.getD (p.length - 2) 0]
    scale := some (PVal.num (p.getD (p.length - 1) 0)) }

/-- Python str.lower on the unit names compared here (character-wise
lower-casing). -/
def py_lower (s : String) : String :=
  String.mk (s.data.map Char.toLower)

/-- Lines 76-85 of leak_rvs: convert the drawn value iff a conversion
pair is supplied and its metric is not "gram" and its increment is not
"second" (case-insensitive); gas_convert is the external unit
converter. -/
def convert_leaksize (gas_convert : ℚ → String → String → ℚ)
    (gpsec_conversion : Option (String × String)) (leaksize : ℚ) : ℚ :=
  match gpsec_conversion with
  | none => leaksize
  | some (metric, increment) =>
      if py_lower metric ≠ "gram" ∧ py_lower increment ≠ "second" then
        gas_convert leaksize metric increment
      else leaksize

/-- Line 86 of leak_rvs: the loop exits when
`not max_size or leaksize < max_size`; a max_size of None or 0 is falsy
in Python, so then any value is accepted. -/
def leak_accept (max_size : Option ℚ) (leaksize : ℚ) : Bool :=
  match max_size with
  | none => true
  | some m => if m = 0 then true else decide (leaksize < m)

/-- The rejection loop of leak_rvs, with the draw index made explicit:
draws i is the value of the i-th call to distribution.rvs().  Returns
some v once a draw is accepted within fuel iterations, none while the
loop is still running. -/
def leak_rvs_loop (gas_convert : ℚ → String → String → ℚ) (draws : ℕ → ℚ)
    (max_size : Option ℚ) (gpsec_conversion : Option (String × String)) :
    ℕ → ℕ → Option ℚ
  | _, 0 => none
  | i, fuel + 1 =>
      let leaksize := convert_leaksize gas_convert gpsec_conversion (draws i)
      if leak_accept max_size leaksize then some leaksize
      else leak_rvs_loop gas_convert draws max_size gpsec_conversion (i + 1) fuel

/-- distributions.py leak_rvs as a fuel-indexed loop.  The distribution
argument is its stream of rvs() draws; gas_convert is external. -/
def leak_rvs (distribution : ℕ → ℚ) (max_size : Option ℚ)
    (gpsec_conversion : Option (String × String))
    (gas_convert : ℚ → String → String → ℚ) (fuel : ℕ) : Option ℚ :=
  leak_rvs_loop gas_convert distribution max_size gpsec_conversion 0 fuel

/-- One subtype entry of program["subtypes"]: the keys unpackage_dist
reads. -/
structure SubtypeConfig where
  leak_rate_source : Option String
  dist_type : String
  dist_scale : ℚ
  dist_shape : PyShape
  dist_sigma : Option ℚ
  leak_rates_file : String
deriving DecidableEq

/-- A subtype entry after unpackage_dist: the possibly mutated config
keys plus the populated leak_rate_dist or empirical_leak_rates key. -/
structure SubtypeLoaded where
  config : SubtypeConfig
  leak_rate_dist : Option FrozenDist
  empirical_leak_rates : Option (List ℚ)
deriving DecidableEq

/-- Loop body of unpackage_dist for one subtype.  np_exp models numpy
exp, read_first_column models pd.read_csv(wd / file).iloc[:, 0], fit the
external scipy fitter (unused in parametric mode). -/
def unpackage_subtype (np_exp : ℚ → ℚ) (read_first_column : String → List ℚ)
    (fit : List ℚ → ℚ → Except String (List ℚ))
    (st : SubtypeConfig) : Except String SubtypeLoaded :=
  if st.leak_rate_source = none ∨ st.leak_rate_source = some "dist" then
    let scale1 := if st.dist_type = "lognorm" then np_exp st.dist_scale else st.dist_scale
    let shape1 :=
      match st.dist_sigma with
      | some sigma => PyShape.list [sigma]
      | none => st.dist_shape
    (fit_dist fit none st.dist_type 0 shape1 (some scale1)).map (fun d =>
      { config := { st with dist_scale := scale1, dist_shape := shape1 }
        leak_rate_dist := some d
        empirical_leak_rates := none })
  else if st.leak_rate_source = some "sample" then
    Except.ok
      { config := st
        leak_rate_dist := none
        empirical_leak_rates := some (read_first_column st.leak_rates_file) }
  else
    Except.ok { config := st, leak_rate_dist := none, empirical_leak_rates := none }

/-- distributions.py unpackage_dist over the whole program: apply the
loop body to every subtype. -/
def unpackage_dist (np_exp : ℚ → ℚ) (read_first_column : String → List ℚ)
    (fit : List ℚ → ℚ → Except String (List ℚ))
    (program : List (String × SubtypeConfig)) :
    Except String (List (String × SubtypeLoaded)) :=
  program.mapM (fun p =>
    (unpackage_subtype np_exp read_first_column fit p.2).map (fun l => (p.1, l)))

/-- np.where(condition_vector): the indices of the true entries, in
increasing order. -/
def np_where : List Bool → List ℕ
  | [] => []
  | b :: rest => (if b then [0] else []) ++ (np_where rest).map (fun i => i + 1)

/-- The consecutive gaps abs(x - y) for (x, y) in
zip(indices[1:], indices[:-1]). -/
def mid_gaps (indices : List ℕ) : List ℕ :=
  ((indices.drop 1).zip indices.dropLast).map
    (fun p => ((p.1 : ℤ) - (p.2 : ℤ)).natAbs)

/-- Python max over a list of naturals (0 when empty; every use site in
gap_calculator is nonempty). -/
def list_max (l : List ℕ) : ℕ := l.foldl max 0

/-- generic_functions.py gap_calculator.  The last Python branch is
guarded by len(indices[0] > 1), the length of a boolean array, which is
truthy whenever at least one index exists, so with two or more indices
it always fires. -/
def gap_calculator (condition_vector : List Bool) : ℕ :=
  let indices := np_where condition_vector
  if indices.length = 0 then condition_vector.length
  else if indices.length = 1 then
    max (indices.headD 0) (condition_vector.length - indices.headD 0)
  else
    max (indices.headD 0)
      (max (list_max (mid_gaps indices))
        (condition_vector.length - indices.getLastD 0))

/-- The specification's formulation of the gap rule: the maximum over
the start gap, the successive gaps, and the end gap; the sequence length
when no entry is true. -/
def gap_spec (condition_vector : List Bool) : ℕ :=
  match np_where condition_vector with
  | [] => condition_vector.length
  | i :: rest =>
      list_max (i :: (mid_gaps (i :: rest)
        ++ [condition_vector.length - (i :: rest).getLastD 0]))

/-- A boolean vector with a single true entry: a falses, one true, then
b falses. -/
def one_true (a b : ℕ) : List Bool :=
  List.replicate a false ++ true :: List.replicate b false

/-- The coverage quadrilateral built from the satellite ground points at
t and t + interval; latlon is the external position pipeline
(predictor.get_position followed by ecef_to_llh), giving (lat, lon). -/
def coverage_polygon (latlon : ℚ → ℚ × ℚ) (interval t : ℚ) : List (ℚ × ℚ) :=
  let p1 := latlon t
  let p2 := latlon (t + interval)
  [(p1.2, p1.1 + 1 / 10), (p1.2 + 1 / 10, p1.1),
   (p2.2, p2.1 - 1 / 10), (p2.2 - 1 / 10, p2.1)]

/-- generic_functions.py init_orbit_poly as a fuel-indexed loop (times
in minutes as rationals): while T1 != T2, append the timestamp and its
coverage polygon and advance T1 by interval.  Returns some once the loop
has returned within fuel iterations, none while it is still running. -/
def init_orbit_poly (latlon : ℚ → ℚ × ℚ) :
    ℚ → ℚ → ℚ → ℕ → Option (List ℚ × List (List (ℚ × ℚ)))
  | T1, T2, _, 0 => if T1 = T2 then some ([], []) else none
  | T1, T2, interval, fuel + 1 =>
      if T1 = T2 then some ([], [])
      else
        match init_orbit_poly latlon (T1 + interval) T2 interval fuel with
        | some r => some (T1 :: r.1, coverage_polygon latlon interval T1 :: r.2)
        | none => none

/-- Concrete stand-in for numpy exp used by the witness instantiations
below (any injective map pins the single application). -/
def np_exp_test (x : ℚ) : ℚ := -x

/-- Lognorm parametric subtype used by the C4 witness. -/
def st_lognorm_test : SubtypeConfig :=
  { leak_rate_source := none, dist_type := "lognorm", dist_scale := 2,
    dist_shape := PyShape.num 1, dist_sigma := none, leak_rates_file := "" }

/-- Expected loader output for st_lognorm_test under np_exp_test. -/
def out_lognorm_test : SubtypeLoaded :=
  { config := { st_lognorm_test with dist_scale := -2, dist_shape := PyShape.num 1 }
    leak_rate_dist := some
      { dist_type := "lognorm", shape_args := [PVal.num 1],
        loc := PVal.num 0, scale := some (PVal.num (-2)) }
    empirical_leak_rates := none }

/-- Empirical-mode subtype used by the C7 witness. -/
def st_sample_test : SubtypeConfig :=
  { leak_rate_source := some "sample", dist_type := "lognorm", dist_scale := 0,
    dist_shape := PyShape.pynone, dist_sigma := none, leak_rates_file := "leaks.csv" }

/-- Expected loader output for st_sample_test. -/
def out_sample_test : SubtypeLoaded :=
  { config := st_sample_test, leak_rate_dist := none,
    empirical_leak_rates := some [1, 2] }

/-- A fitter that respects floc, used by the C5 witness. -/
def fit_floc_test (_samples : List ℚ) (l : ℚ) : Except String (List ℚ) :=
  Except.ok [1, l, 2]

/-- A fitter that rejects non-positive samples, used by the C3
witness. -/
def fit_pos_test (samples : List ℚ) (l : ℚ) : Except String (List ℚ) :=
  if samples.all (fun s => decide (0 < s)) then Except.ok [1, l, 2]
  else Except.error "nonpositive"

theorem leak_rvs_loop_lt_max (gas_convert : ℚ → String → String → ℚ)
    (draws : ℕ → ℚ) (gpsec_conversion : Option (String × String))
    (m : ℚ) (hm : m ≠ 0) :
    ∀ fuel i v,
      leak_rvs_loop gas_convert draws (some m) gpsec_conversion i fuel = some v →
      v < m := by
  intro fuel
  induction fuel with
  | zero => intro i v h; simp [leak_rvs_loop] at h
  | succ n ih =>
      intro i v h
      simp only [leak_rvs_loop] at h
      split at h
      · rename_i hacc
        cases h
        simpa [leak_accept, hm] using hacc
      · exact ih (i + 1) v h

theorem leak_rvs_loop_raw (gas_convert : ℚ → String → String → ℚ)
    (draws : ℕ → ℚ) (max_size : Option ℚ) :
    ∀ fuel i v,
      leak_rvs_loop gas_convert draws max_size none i fuel = some v →
      ∃ j, v = draws j := by
  intro fuel
  induction fuel with
  | zero => intro i v h; simp [leak_rvs_loop] at h
  | succ n ih =>
      intro i v h
      simp only [leak_rvs_loop] at h
      split at h
      · cases h
        exact ⟨i, rfl⟩
      · exact ih (i + 1) v h

/-- Claim C1, counterexample to the claim as stated: with max_size = 0
supplied, leak_rvs returns the first draw (here 5) even though it is not
below the bound, because a zero max_size is falsy. -/
theorem leak_rvs_max_zero_counterexample :
    leak_rvs (fun _ => (5 : ℚ)) (some 0) none (fun x _ _ => x) 1 = some 5
    ∧ ¬ ((5 : ℚ) < 0) :=
  ⟨by decide, by decide⟩

/-- Claim C1 (amended): for every distribution and every supplied
nonzero max_size m, whenever leak_rvs returns a value it is strictly
less than m — a draw at or above the bound is discarded and redrawn.  A
supplied max_size of 0 is falsy and imposes no bound. -/
theorem leak_rvs_lt_max_size (distribution : ℕ → ℚ) (max_size : ℚ)
    (gpsec_conversion : Option (String × String))
    (gas_convert : ℚ → String → String → ℚ) (fuel : ℕ) (v : ℚ)
    (hm : max_size ≠ 0)
    (h : leak_rvs distribution (some max_size) gpsec_conversion gas_convert fuel
          = some v) :
    v < max_size :=
  leak_rvs_loop_lt_max gas_convert distribution gpsec_conversion max_size hm fuel 0 v h

/-- Witness for the amended C1 at a concrete input. -/
theorem leak_rvs_lt_max_size_witness :
    ((10 : ℚ) ≠ 0)
    ∧ leak_rvs (fun _ => (3 : ℚ)) (some 10) none (fun x _ _ => x) 1 = some 3
    ∧ (3 : ℚ) < 10 :=
  ⟨by decide, by decide,
    leak_rvs_lt_max_size (fun _ => 3) 10 none (fun x _ _ => x) 1 3
      (by decide) (by decide)⟩

/-- Claim C2: the drawn value is unit-converted iff a conversion pair is
supplied and its metric is not "gram" and its increment is not "second",
both case-insensitively; with no pair the raw draw is returned
unmodified (any value leak_rvs returns without a conversion pair is one
of the raw draws), and a "gram" metric alone already skips the
conversion whatever the increment is. -/
theorem convert_leaksize_spec (gas_convert : ℚ → String → String → ℚ)
    (metric increment : String) (x : ℚ) (distribution : ℕ → ℚ)
    (max_size : Option ℚ) (fuel : ℕ) (v : ℚ) :
    convert_leaksize gas_convert none x = x
    ∧ ((py_lower metric ≠ "gram" ∧ py_lower increment ≠ "second") →
        convert_leaksize gas_convert (some (metric, increment)) x
          = gas_convert x metric increment)
    ∧ (py_lower metric = "gram" →
        convert_leaksize gas_convert (some (metric, increment)) x = x)
    ∧ (py_lower increment = "second" →
        convert_leaksize gas_convert (some (metric, increment)) x = x)
    ∧ (leak_rvs distribution max_size none gas_convert fuel = some v →
        ∃ i, v = distribution i) := by
  refine ⟨rfl, ?_, ?_, ?_, ?_⟩
  · intro h
    simp only [convert_leaksize]
    rw [if_pos h]
  · intro h
    simp only [convert_leaksize]
    rw [if_neg (fun hc => hc.1 h)]
  · intro h
    simp only [convert_leaksize]
    rw [if_neg (fun hc => hc.2 h)]
  · intro h
    exact leak_rvs_loop_raw gas_convert distribution max_size fuel 0 v h

/-- Witness for C2 at concrete inputs: a (kg, hour) pair converts, while
a (Gram, hour) pair skips the conversion. -/
theorem convert_leaksize_spec_witness :
    convert_leaksize (fun x _ _ => x + 1) (some ("kg", "hour")) 5 = 5 + 1
    ∧ convert_leaksize (fun x _ _ => x + 1) (some ("Gram", "hour")) 5 = 5 :=
  ⟨(convert_leaksize_spec (fun x _ _ => x + 1) "kg" "hour" 5 (fun _ => 0)
      none 0 0).2.1 (by decide),
   (convert_leaksize_spec (fun x _ _ => x + 1) "Gram" "hour" 5 (fun _ => 0)
      none 0 0).2.2.1 (by decide)⟩

/-- Claim C9: a supplied max_size of 0 imposes no bound at all: leak_rvs
behaves identically to an absent max_size, and the first (possibly
converted) draw is returned immediately, because the rejection condition
tests max_size for truthiness rather than presence. -/
theorem leak_rvs_zero_max_size (distribution : ℕ → ℚ)
    (gpsec_conversion : Option (String × String))
    (gas_convert : ℚ → String → String → ℚ) :
    (∀ fuel, leak_rvs distribution (some 0) gpsec_conversion gas_convert fuel
        = leak_rvs distribution none gpsec_conversion gas_convert fuel)
    ∧ (∀ fuel, leak_rvs distribution (some 0) gpsec_conversion gas_convert (fuel + 1)
        = some (convert_leaksize gas_convert gpsec_conversion (distribution 0))) := by
  constructor
  · intro fuel
    cases fuel with
    | zero => rfl
    | succ n => simp [leak_rvs, leak_rvs_loop, leak_accept]
  · intro fuel
    simp [leak_rvs, leak_rvs_loop, leak_accept]

theorem fit_dist_empirical_eq (fit : List ℚ → ℚ → Except String (List ℚ))
    (ss : List ℚ) (dt : String) (loc : ℚ) (shape : PyShape) (scale : Option ℚ) :
    fit_dist fit (some ss) dt loc shape scale
      = ((match fit ss loc with
          | Except.ok p => Except.ok p
          | Except.error _ => fit (ss.filter (fun s => decide (0 < s))) loc :
            Except String (List ℚ))).map (freeze_fitted dt) := by
  cases h : fit ss loc with
  | ok p =>
      simp [fit_dist, freeze_fitted, h, Except.map, Except.bind, normalize_shape]
  | error e =>
      cases h2 : fit (ss.filter (fun s => decide (0 < s))) loc with
      | ok p =>
          simp [fit_dist, freeze_fitted, h, h2, Except.map, Except.bind,
            normalize_shape]
      | error e2 =>
          simp [fit_dist, h, h2, Except.map, Except.bind]

/-- Claim C3: in empirical-fit mode, a successful first fit is used as
is; if the first fit raises, the fit is retried exactly once on the
samples with the non-positive values discarded and the outcome of that
second fit is the outcome of fit_dist, so a second failure propagates
its error to the caller uncaught. -/
theorem fit_dist_retry (fit : List ℚ → ℚ → Except String (List ℚ))
    (ss : List ℚ) (dt : String) (loc : ℚ) (shape : PyShape) (scale : Option ℚ) :
    (∀ p, fit ss loc = Except.ok p →
        fit_dist fit (some ss) dt loc shape scale
          = Except.ok (freeze_fitted dt p))
    ∧ (∀ e, fit ss loc = Except.error e →
        fit_dist fit (some ss) dt loc shape scale
          = (fit (ss.filter (fun s => decide (0 < s))) loc).map (freeze_fitted dt))
    ∧ (∀ e e2, fit ss loc = Except.error e →
        fit (ss.filter (fun s => decide (0 < s))) loc = Except.error e2 →
        fit_dist fit (some ss) dt loc shape scale = Except.error e2) := by
  refine ⟨?_, ?_, ?_⟩
  · intro p hp
    rw [fit_dist_empirical_eq, hp]
    rfl
  · intro e he
    rw [fit_dist_empirical_eq, he]
  · intro e e2 he he2
    rw [fit_dist_empirical_eq, he, he2]
    rfl

/-- Witness for C3: a fitter that rejects the non-positive sample 0 on
the first call succeeds on the filtered retry. -/
theorem fit_dist_retry_witness :
    fit_dist fit_pos_test (some [0, 5]) "lognorm" 0 PyShape.pynone none
      = (fit_pos_test ([0, 5].filter (fun s => decide ((0 : ℚ) < s))) 0).map
          (freeze_fitted "lognorm") :=
  (fit_dist_retry fit_pos_test [0, 5] "lognorm" 0 PyShape.pynone none).2.1
    "nonpositive" (by rfl)

/-- Claim C5: in empirical-fit mode the location is held fixed at the
caller-supplied loc (the fitter is always invoked with floc = loc and
never estimates it), and the returned distribution object carries
exactly that caller-supplied location value — wrapped, as in the source
line `loc = (param[-2],)`, in a one-element tuple. -/
theorem fit_dist_fixed_loc (fit : List ℚ → ℚ → Except String (List ℚ))
    (ss : List ℚ) (dt : String) (loc : ℚ) (shape : PyShape) (scale : Option ℚ)
    (d : FrozenDist)
    (hfloc : ∀ samples p, fit samples loc = Except.ok p →
        p.getD (p.length - 2) 0 = loc)
    (hok : fit_dist fit (some ss) dt loc shape scale = Except.ok d) :
    d.loc = PVal.tup [loc] := by
  rw [fit_dist_empirical_eq] at hok
  cases h : fit ss loc with
  | ok p =>
      rw [h] at hok
      cases hok
      exact congrArg (fun z => PVal.tup [z]) (hfloc ss p h)
  | error e =>
      rw [h] at hok
      cases h2 : fit (ss.filter (fun s => decide (0 < s))) loc with
      | ok p =>
          rw [h2] at hok
          cases hok
          exact congrArg (fun z => PVal.tup [z])
            (hfloc (ss.filter (fun s => decide (0 < s))) p h2)
      | error e2 =>
          rw [h2] at hok
          cases hok

/-- Witness for C5 at a concrete fitter respecting floc. -/
theorem fit_dist_fixed_loc_witness :
    (freeze_fitted "lognorm" [1, 7, 2]).loc = PVal.tup [7] :=
  fit_dist_fixed_loc fit_floc_test [4, 5] "lognorm" 7 PyShape.pynone none
    (freeze_fitted "lognorm" [1, 7, 2])
    (by
      intro samples p hp
      simp only [fit_floc_test, Except.ok.injEq] at hp
      subst hp
      rfl)
    (by rfl)

/-- Claim C6: fit_dist normalizes its shape argument: a textual list
yields the same result as the equivalent numeric list, a textual scalar
the same result as the bare scalar, and a bare scalar is promoted to the
single-element sequence containing it; after normalization the shape is
always an ordered sequence of arguments. -/
theorem fit_dist_shape_normalization (fit : List ℚ → ℚ → Except String (List ℚ))
    (dt : String) (loc : ℚ) (scale : Option ℚ) :
    (∀ s xs, jsonLoads s = some (JsonVal.list xs) →
        fit_dist fit none dt loc (PyShape.str s) scale
          = fit_dist fit none dt loc (PyShape.list xs) scale)
    ∧ (∀ s x, jsonLoads s = some (JsonVal.num x) →
        fit_dist fit none dt loc (PyShape.str s) scale
          = fit_dist fit none dt loc (PyShape.num x) scale)
    ∧ (∀ x : ℚ, fit_dist fit none dt loc (PyShape.num x) scale
        = fit_dist fit none dt loc (PyShape.list [x]) scale)
    ∧ (∀ x : ℚ, ∀ d, fit_dist fit none dt loc (PyShape.num x) scale = Except.ok d →
        d.shape_args = [PVal.num x]) := by
  refine ⟨?_, ?_, ?_, ?_⟩
  · intro s xs h
    simp [fit_dist, normalize_shape, h, Except.bind, Except.map]
  · intro s x h
    simp [fit_dist, normalize_shape, h, Except.bind, Except.map]
  · intro x
    simp [fit_dist, normalize_shape, Except.bind, Except.map]
  · intro x d h
    simp [fit_dist, normalize_shape, Except.bind, Except.map] at h
    rw [← h]

/-- Witness for C6: the textual list "[2, 23.4]" json-decodes to the
numeric list [2, 23.4] and fit_dist treats the two spellings
identically. -/
theorem fit_dist_shape_normalization_witness :
    jsonLoads "[2, 23.4]"
      = some (JsonVal.list
          [((2 : ℕ) : ℚ), ((23 : ℕ) : ℚ) + ((4 : ℕ) : ℚ) / (10 : ℚ) ^ (1 : ℕ)])
    ∧ fit_dist (fun _ _ => Except.error "") none "lognorm" 0
        (PyShape.str "[2, 23.4]") (some 1)
      = fit_dist (fun _ _ => Except.error "") none "lognorm" 0
        (PyShape.list
          [((2 : ℕ) : ℚ), ((23 : ℕ) : ℚ) + ((4 : ℕ) : ℚ) / (10 : ℚ) ^ (1 : ℕ)])
        (some 1) :=
  ⟨rfl,
   (fit_dist_shape_normalization (fun _ _ => Except.error "") "lognorm" 0
      (some 1)).1 "[2, 23.4]"
      [((2 : ℕ) : ℚ), ((23 : ℕ) : ℚ) + ((4 : ℕ) : ℚ) / (10 : ℚ) ^ (1 : ℕ)] rfl⟩

theorem except_map_ok_inv {α β : Type} (f : α → β) (e : Except String α) (b : β)
    (h : Except.map f e = Except.ok b) : ∃ a, e = Except.ok a ∧ b = f a := by
  cases e with
  | ok a =>
      refine ⟨a, rfl, ?_⟩
      simp [Except.map] at h
      exact h.symm
  | error e2 => simp [Except.map] at h

/-- Claim C4: during unpackage_dist, a parametric-mode subtype whose
dist_type is "lognorm" gets its stored dist_scale replaced by np_exp of
the configured value, and the scale used to construct the distribution
equals np_exp of the configured dist_scale — np_exp is an arbitrary
function here, so the equation certifies exactly one application, never
a double one. -/
theorem unpackage_lognorm_scale (np_exp : ℚ → ℚ)
    (read_first_column : String → List ℚ)
    (fit : List ℚ → ℚ → Except String (List ℚ)) (st : SubtypeConfig)
    (out : SubtypeLoaded)
    (hsrc : st.leak_rate_source = none ∨ st.leak_rate_source = some "dist")
    (htype : st.dist_type = "lognorm")
    (hok : unpackage_subtype np_exp read_first_column fit st = Except.ok out) :
    out.config.dist_scale = np_exp st.dist_scale
    ∧ out.leak_rate_dist.map FrozenDist.scale
        = some (some (PVal.num (np_exp st.dist_scale))) := by
  unfold unpackage_subtype at hok
  rw [if_pos hsrc, htype] at hok
  simp only [if_pos] at hok
  obtain ⟨d, hd, hout⟩ := except_map_ok_inv _ _ _ hok
  subst hout
  unfold fit_dist at hd
  simp only [Except.bind, Except.map] at hd
  cases hn : normalize_shape
      (match st.dist_sigma with
       | some sigma => PyShape.list [sigma]
       | none => st.dist_shape) with
  | ok sh =>
      rw [hn] at hd
      cases hd
      exact ⟨rfl, rfl⟩
  | error e =>
      rw [hn] at hd
      cases hd

/-- Witness for C4 at a concrete lognorm subtype. -/
theorem unpackage_lognorm_scale_witness :
    out_lognorm_test.config.dist_scale = np_exp_test st_lognorm_test.dist_scale
    ∧ out_lognorm_test.leak_rate_dist.map FrozenDist.scale
        = some (some (PVal.num (np_exp_test st_lognorm_test.dist_scale))) :=
  unpackage_lognorm_scale np_exp_test (fun _ => []) (fun _ _ => Except.error "")
    st_lognorm_test out_lognorm_test (Or.inl rfl) rfl (by rfl)

/-- Claim C7: after the unpackage_dist loop body runs on a subtype,
exactly one of leak_rate_dist and empirical_leak_rates is populated and
never both: an absent leak_rate_source or the value "dist" selects
parametric mode (absent defaults to it) and populates leak_rate_dist
only, while "sample" populates empirical_leak_rates only. -/
theorem unpackage_exactly_one (np_exp : ℚ → ℚ)
    (read_first_column : String → List ℚ)
    (fit : List ℚ → ℚ → Except String (List ℚ)) (st : SubtypeConfig)
    (out : SubtypeLoaded)
    (hok : unpackage_subtype np_exp read_first_column fit st = Except.ok out) :
    ((st.leak_rate_source = none ∨ st.leak_rate_source = some "dist") →
        out.leak_rate_dist.isSome = true ∧ out.empirical_leak_rates = none)
    ∧ (st.leak_rate_source = some "sample" →
        out.leak_rate_dist = none ∧ out.empirical_leak_rates.isSome = true)
    ∧ ((st.leak_rate_source = none ∨ st.leak_rate_source = some "dist"
          ∨ st.leak_rate_source = some "sample") →
        (out.leak_rate_dist.isSome = true ∧ out.empirical_leak_rates = none)
        ∨ (out.leak_rate_dist = none ∧ out.empirical_leak_rates.isSome = true)) := by
  have hdist : (st.leak_rate_source = none ∨ st.leak_rate_source = some "dist") →
      out.leak_rate_dist.isSome = true ∧ out.empirical_leak_rates = none := by
    intro hsrc
    unfold unpackage_subtype at hok
    rw [if_pos hsrc] at hok
    obtain ⟨d, hd, hout⟩ := except_map_ok_inv _ _ _ hok
    subst hout
    exact ⟨rfl, rfl⟩
  have hsample : st.leak_rate_source = some "sample" →
      out.leak_rate_dist = none ∧ out.empirical_leak_rates.isSome = true := by
    intro hsrc
    unfold unpackage_subtype at hok
    rw [if_neg, if_pos hsrc] at hok
    · cases hok
      exact ⟨rfl, rfl⟩
    · rw [hsrc]
      rintro (h | h) <;> simp at h
  refine ⟨hdist, hsample, ?_⟩
  rintro (h | h | h)
  · exact Or.inl (hdist (Or.inl h))
  · exact Or.inl (hdist (Or.inr h))
  · exact Or.inr (hsample h)

/-- Witness for C7 at a concrete sample-mode subtype. -/
theorem unpackage_exactly_one_witness :
    out_sample_test.leak_rate_dist = none
    ∧ out_sample_test.empirical_leak_rates.isSome = true :=
  (unpackage_exactly_one np_exp_test (fun _ => [1, 2])
    (fun _ _ => Except.error "") st_sample_test out_sample_test (by rfl)).2.1 rfl

theorem foldl_max_init (l : List ℕ) :
    ∀ a b : ℕ, l.foldl max (max a b) = max a (l.foldl max b) := by
  induction l with
  | nil => intro a b; rfl
  | cons c l ih =>
      intro a b
      show l.foldl max (max (max a b) c) = max a ((c :: l).foldl max b)
      rw [max_assoc, ih]
      rfl

theorem list_max_cons (a : ℕ) (l : List ℕ) :
    list_max (a :: l) = max a (list_max l) := by
  show l.foldl max (max 0 a) = max a (l.foldl max 0)
  rw [max_comm 0 a]
  exact foldl_max_init l a 0

theorem list_max_append_singleton (l : List ℕ) (a : ℕ) :
    list_max (l ++ [a]) = max (list_max l) a := by
  unfold list_max
  rw [List.foldl_append]
  rfl

theorem np_where_replicate_false (n : ℕ) :
    np_where (List.replicate n false) = [] := by
  induction n with
  | zero => rfl
  | succ k ih => simp [List.replicate_succ, np_where, ih]

theorem np_where_one_true (a b : ℕ) : np_where (one_true a b) = [a] := by
  induction a with
  | zero => simp [one_true, np_where, np_where_replicate_false]
  | succ k ih =>
      have h : one_true (k + 1) b = false :: one_true k b := by
        simp [one_true, List.replicate_succ]
      rw [h]
      simp [np_where, ih]

theorem one_true_length (a b : ℕ) : (one_true a b).length = a + b + 1 := by
  simp [one_true]
  omega

theorem gap_calculator_eq_spec (v : List Bool) :
    gap_calculator v = gap_spec v := by
  cases h : np_where v with
  | nil => simp [gap_calculator, gap_spec, h]
  | cons i rest =>
      cases rest with
      | nil =>
          simp [gap_calculator, gap_spec, h, mid_gaps, list_max, Nat.zero_max]
      | cons j rest2 =>
          simp only [gap_calculator, gap_spec, h]
          have h0 : (i :: j :: rest2).length ≠ 0 := by simp
          have h1 : (i :: j :: rest2).length ≠ 1 := by simp
          rw [if_neg h0, if_neg h1, list_max_cons, list_max_append_singleton]
          rfl

/-- Claim C8: gap_calculator returns the maximum gap between successive
true entries including both boundary gaps (formalized as agreement with
the spec-side formula gap_spec for every boolean vector); on an
all-false sequence of length n it returns n; on a single true entry
preceded by a falses and followed by b falses it returns the larger
boundary gap max a (b + 1) — in particular the full length when the
true entry is at index 0; and on trues at indices 2, 5, 9 of a
length-10 sequence it returns 4. -/
theorem gap_calculator_spec :
    (∀ v : List Bool, gap_calculator v = gap_spec v)
    ∧ (∀ n : ℕ, gap_calculator (List.replicate n false) = n)
    ∧ (∀ a b : ℕ, gap_calculator (one_true a b) = max a (b + 1))
    ∧ (∀ b : ℕ, gap_calculator (one_true 0 b) = b + 1)
    ∧ gap_calculator
        [false, false, true, false, false, true, false, false, false, true] = 4 := by
  have hone : ∀ a b : ℕ, gap_calculator (one_true a b) = max a (b + 1) := by
    intro a b
    have hlen : (one_true a b).length = a + b + 1 := one_true_length a b
    simp only [gap_calculator, np_where_one_true, List.length_cons,
      List.length_nil, List.headD]
    rw [if_pos trivial, hlen]
    have : a + b + 1 - a = b + 1 := by omega
    rw [this]
    simp
  refine ⟨gap_calculator_eq_spec, ?_, hone, ?_, by decide⟩
  · intro n
    simp [gap_calculator, np_where_replicate_false]
  · intro b
    rw [hone 0 b]
    exact Nat.zero_max (b + 1)

theorem init_orbit_poly_sound (latlon : ℚ → ℚ × ℚ) (T2 interval : ℚ) :
    ∀ fuel T1 days polys,
      init_orbit_poly latlon T1 T2 interval fuel = some (days, polys) →
        T2 = T1 + (days.length : ℚ) * interval
        ∧ days = (List.range days.length).map (fun k : ℕ => T1 + (k : ℚ) * interval)
        ∧ polys = days.map (coverage_polygon latlon interval)
        ∧ T2 ∉ days := by
  intro fuel
  induction fuel with
  | zero =>
      intro T1 days polys h
      simp only [init_orbit_poly] at h
      split at h
      · rename_i hT
        injection h with h2
        injection h2 with hd hp
        subst hd
        subst hp
        subst hT
        refine ⟨by simp, by simp, by simp, by simp⟩
      · cases h
  | succ n ih =>
      intro T1 days polys h
      simp only [init_orbit_poly] at h
      split at h
      · rename_i hT
        injection h with h2
        injection h2 with hd hp
        subst hd
        subst hp
        subst hT
        refine ⟨by simp, by simp, by simp, by simp⟩
      · rename_i hT
        cases hrec : init_orbit_poly latlon (T1 + interval) T2 interval n with
        | none => rw [hrec] at h; cases h
        | some r =>
            rw [hrec] at h
            injection h with h2
            injection h2 with hd hp
            subst hd
            subst hp
            obtain ⟨ih1, ih2, ih3, ih4⟩ := ih (T1 + interval) r.1 r.2 (by rw [hrec])
            refine ⟨?_, ?_, ?_, ?_⟩
            · rw [ih1]
              simp only [List.length_cons]
              push_cast
              ring
            · simp only [List.length_cons]
              rw [List.range_succ_eq_map, List.map_cons, List.map_map]
              refine List.cons_eq_cons.mpr ⟨by simp, ?_⟩
              conv_lhs => rw [ih2]
              apply List.map_congr_left
              intro k _
              simp only [Function.comp_apply]
              push_cast
              ring
            · rw [List.map_cons, ← ih3]
            · intro hmem
              rcases List.mem_cons.mp hmem with hcase | hcase
              · exact hT hcase.symm
              · exact ih4 hcase

theorem init_orbit_poly_complete (latlon : ℚ → ℚ × ℚ) (T2 interval : ℚ) :
    ∀ n : ℕ, ∀ T1 : ℚ, T2 = T1 + (n : ℚ) * interval →
      ∃ r, init_orbit_poly latlon T1 T2 interval n = some r := by
  intro n
  induction n with
  | zero =>
      intro T1 h
      refine ⟨([], []), ?_⟩
      have hT : T1 = T2 := by rw [h]; push_cast; ring
      simp [init_orbit_poly, hT]
  | succ k ih =>
      intro T1 h
      by_cases hT : T1 = T2
      · exact ⟨([], []), by simp [init_orbit_poly, hT]⟩
      · have h2 : T2 = (T1 + interval) + (k : ℚ) * interval := by
          rw [h]; push_cast; ring
        obtain ⟨r, hr⟩ := ih (T1 + interval) h2
        refine ⟨(T1 :: r.1, coverage_polygon latlon interval T1 :: r.2), ?_⟩
        simp [init_orbit_poly, hT, hr]

/-- Claim C10 (amended): init_orbit_poly terminates iff the span from T1
to T2 is a non-negative integer multiple of the interval (the loop guard
is inequality, not ordering); whenever it terminates it returns two
lists of equal length with exactly one timestamp and one polygon per
sampled step, the timestamps being T1, T1 + interval, ... — strictly
increasing whenever the interval is positive (with a negative interval
the loop can still terminate, with decreasing timestamps) — and T2
itself is never among them. -/
theorem init_orbit_poly_characterization (latlon : ℚ → ℚ × ℚ)
    (T1 T2 interval : ℚ) :
    ((∃ fuel r, init_orbit_poly latlon T1 T2 interval fuel = some r)
      ↔ ∃ n : ℕ, T2 - T1 = (n : ℚ) * interval)
    ∧ (∀ fuel days polys,
        init_orbit_poly latlon T1 T2 interval fuel = some (days, polys) →
          polys.length = days.length
          ∧ days = (List.range days.length).map (fun k : ℕ => T1 + (k : ℚ) * interval)
          ∧ polys = days.map (coverage_polygon latlon interval)
          ∧ T2 = T1 + (days.length : ℚ) * interval
          ∧ T2 ∉ days
          ∧ (0 < interval → days.Pairwise (fun a b => a < b))) := by
  constructor
  · constructor
    · rintro ⟨fuel, ⟨days, polys⟩, h⟩
      obtain ⟨h1, -, -, -⟩ := init_orbit_poly_sound latlon T2 interval fuel T1 days polys h
      exact ⟨days.length, by rw [h1]; ring⟩
    · rintro ⟨n, hn⟩
      obtain ⟨r, hr⟩ := init_orbit_poly_complete latlon T2 interval n T1 (by linarith)
      exact ⟨n, r, hr⟩
  · intro fuel days polys h
    obtain ⟨h1, h2, h3, h4⟩ := init_orbit_poly_sound latlon T2 interval fuel T1 days polys h
    refine ⟨by rw [h3]; simp, h2, h3, h1, h4, fun hi => ?_⟩
    rw [h2]
    exact List.Pairwise.map _
      (fun a b hab => by
        have hc : (a : ℚ) < (b : ℚ) := by exact_mod_cast hab
        have := mul_lt_mul_of_pos_right hc hi
        linarith)
      (List.pairwise_lt_range _)

/-- Claim C10, counterexample to the claim as stated: with interval -5,
T1 = 10 and T2 = 0, the span is the non-negative integer multiple
2 * (-5) of the interval, the loop terminates, but the returned
timestamps [10, 5] are decreasing, not increasing. -/
theorem init_orbit_poly_not_increasing :
    init_orbit_poly (fun _ => ((0 : ℚ), (0 : ℚ))) 10 0 (-5) 2
      = some ([10, 5],
          [[((0 : ℚ), (1 : ℚ) / 10), (1 / 10, 0), (0, -(1 / 10)), (-(1 / 10), 0)],
           [((0 : ℚ), (1 : ℚ) / 10), (1 / 10, 0), (0, -(1 / 10)), (-(1 / 10), 0)]])
    ∧ ¬ List.Pairwise (fun a b : ℚ => a < b) [10, 5] := by
  constructor
  · norm_num [init_orbit_poly, coverage_polygon]
  · intro hp
    rw [List.pairwise_cons] at hp
    have := hp.1 5 (List.mem_singleton.mpr rfl)
    norm_num at this

/-- Witness for the amended C10 at a concrete terminating run with a
positive interval. -/
theorem init_orbit_poly_characterization_witness :
    init_orbit_poly (fun t => (t, t)) 0 2 1 2
      = some ([0, 1],
          [[((0 : ℚ), (1 : ℚ) / 10), (1 / 10, 0), (1, 9 / 10), (9 / 10, 1)],
           [((1 : ℚ), (11 : ℚ) / 10), (11 / 10, 1), (2, 19 / 10), (19 / 10, 2)]])
    ∧ List.Pairwise (fun a b : ℚ => a < b) [0, 1] := by
  have h : init_orbit_poly (fun t => (t, t)) 0 2 1 2
      = some ([0, 1],
          [[((0 : ℚ), (1 : ℚ) / 10), (1 / 10, 0), (1, 9 / 10), (9 / 10, 1)],
           [((1 : ℚ), (11 : ℚ) / 10), (11 / 10, 1), (2, 19 / 10), (19 / 10, 2)]]) := by
    norm_num [init_orbit_poly, coverage_polygon]
  refine ⟨h, ?_⟩
  exact ((init_orbit_poly_characterization (fun t => (t, t)) 0 2 1).2 2 [0, 1]
      [[((0 : ℚ), (1 : ℚ) / 10), (1 / 10, 0), (1, 9 / 10), (9 / 10, 1)],
       [((1 : ℚ), (11 : ℚ) / 10), (11 / 10, 1), (2, 19 / 10), (19 / 10, 2)]]
      h).2.2.2.2.2 (by norm_num)

end LDARSim
